import Mathlib

/-!
# Verification of the RealMultiLLM request-dispatch and response-caching engine

Shallow embedding of the two core modules:

* `Manager` — `src/core/llm_manager/manager.py`: `LLMManager` (cache,
  health-aware provider selection, statistics), `RequestBatcher`, and
  `EnhancedLLMManager`.
* `CoreQueue` — `src/core/llm_manager.py`: `RequestQueue` (semaphore
  admission gate plus retry loop with exponential backoff).

Python dicts are modelled as insertion-ordered association lists
(assignment to a present key updates the value in place, keeping the key's
position; assignment to a fresh key appends at the end), matching CPython
dict semantics that `_update_cache` relies on via `next(iter(...))`.
-/

namespace Manager

/-- `ProviderType` enumeration from `manager.py`. -/
inductive ProviderType where
  | openai
  | anthropic
  | cohere
  | local
deriving DecidableEq, Repr

/-- `LLMRequest` dataclass.  Python `int` is modelled as `Int`, the float
`temperature` as `Rat` (only its equality and printed form matter to the
code under verification, never float arithmetic).  `provider_preferences`
and `metadata` default to `None`, modelled by `Option`; metadata values are
modelled as strings since the code only stores and compares them. -/
structure LLMRequest where
  prompt : String
  max_tokens : Int := 1000
  temperature : Rat := (7 : Rat) / 10
  provider_preferences : Option (List ProviderType) := none
  metadata : Option (List (String × String)) := none
deriving DecidableEq, Repr

/-- `LLMResponse` dataclass. -/
structure LLMResponse where
  content : String
  provider : ProviderType
  tokens_used : Int
  latency_ms : Rat
  metadata : Option (List (String × String)) := none
deriving DecidableEq, Repr

/-- A provider, per the `LLMProvider` protocol: `generate` is modelled by a
deterministic outcome function `gen` (success with a response, or the
message of the raised exception), and `health_check` by the boolean
`healthy`. -/
structure LLMProvider where
  gen : LLMRequest → Except String LLMResponse
  healthy : Bool

/-- Ordered-dict lookup: Python `key in d` / `d[key]`. -/
def alookup {κ α : Type} [DecidableEq κ] : List (κ × α) → κ → Option α
  | [], _ => none
  | (k, v) :: rest, key => if k = key then some v else alookup rest key

/-- Ordered-dict assignment `d[key] = v`: a present key keeps its position
and gets the new value; a fresh key is appended at the end. -/
def dictInsert {κ α : Type} [DecidableEq κ] (m : List (κ × α)) (k : κ) (v : α) :
    List (κ × α) :=
  match alookup m k with
  | some _ => m.map (fun kv => if kv.1 = k then (k, v) else kv)
  | none => m ++ [(k, v)]

/-- State of an `LLMManager` instance: the provider dict in registration
order, the request cache dict in insertion order, the configured cache
size, and the `_stats` counters.  `call_counts` additionally records, per
provider type, how many times that provider's `generate` has been invoked
(the observable the spec's tests count via mock providers). -/
structure ManagerState where
  providers : List (ProviderType × LLMProvider)
  request_cache : List (String × LLMResponse)
  cache_size : Nat
  requests_total : Nat
  cache_hits : Nat
  errors : Nat
  call_counts : ProviderType → Nat

/-- `LLMManager.__init__(cache_size)`. -/
def initManager (cache_size : Nat) : ManagerState :=
  { providers := [], request_cache := [], cache_size := cache_size,
    requests_total := 0, cache_hits := 0, errors := 0,
    call_counts := fun _ => 0 }

/-- `LLMManager.register_provider` (the health probe is only logged). -/
def register_provider (st : ManagerState) (t : ProviderType) (p : LLMProvider) :
    ManagerState :=
  { st with providers := dictInsert st.providers t p }

/-- `LLMManager._create_cache_key`: the key data
`f"{prompt}:{max_tokens}:{temperature}"`.  The source then digests this
string with `hashlib.md5(...).hexdigest()`; the md5 step is a fixed
deterministic function of `key_data`, so it is modelled as the identity on
that string (no claim depends on md5 collisions). -/
def create_cache_key (r : LLMRequest) : String :=
  r.prompt ++ ":" ++ toString r.max_tokens ++ ":" ++ toString r.temperature

/-- The preference loop of `_select_optimal_provider`: first preference
that is registered and passes `health_check`; a preference that is
unregistered or unhealthy is skipped. -/
def findPrefProvider (providers : List (ProviderType × LLMProvider)) :
    List ProviderType → Option (ProviderType × LLMProvider)
  | [] => none
  | p :: rest =>
    match alookup providers p with
    | some prov => if prov.healthy then some (p, prov)
                   else findPrefProvider providers rest
    | none => findPrefProvider providers rest

/-- The fallback loop of `_select_optimal_provider`: first provider in
registration order that passes `health_check`. -/
def findFirstHealthy : List (ProviderType × LLMProvider) →
    Option (ProviderType × LLMProvider)
  | [] => none
  | (t, prov) :: rest =>
    if prov.healthy then some (t, prov) else findFirstHealthy rest

/-- `LLMManager._select_optimal_provider`, as a function of the only piece
of `self` it reads, the `_providers` dict.  Note Python truthiness:
`if request.provider_preferences:` skips the preference loop both for
`None` and for the empty list (and an empty loop finds nothing anyway).
The provider type is returned alongside the instance for call-count
bookkeeping (the dict is keyed by type). -/
def select_optimal_provider (providers : List (ProviderType × LLMProvider))
    (r : LLMRequest) : Except String (ProviderType × LLMProvider) :=
  let fromPrefs :=
    match r.provider_preferences with
    | some prefs => findPrefProvider providers prefs
    | none => none
  match fromPrefs with
  | some pp => Except.ok pp
  | none =>
    match findFirstHealthy providers with
    | some pp => Except.ok pp
    | none => Except.error "No healthy providers available"

/-- `pref in self._providers and self._providers[pref].health_check()`,
the condition under which the preference loop returns `pref`. -/
def regHealthy (providers : List (ProviderType × LLMProvider))
    (p : ProviderType) : Bool :=
  match alookup providers p with
  | some prov => prov.healthy
  | none => false

/-- `LLMManager._update_cache`.  When `len(cache) >= cache_size` it deletes
`next(iter(cache))` — the oldest (head) entry — before the dict
assignment; this eviction happens whether or not `key` is already present.
`next(iter(...))` on an empty dict raises `StopIteration`, modelled as
`none` (reachable only with `cache_size = 0`). -/
def update_cache (cache_size : Nat) (cache : List (String × LLMResponse))
    (key : String) (resp : LLMResponse) :
    Option (List (String × LLMResponse)) :=
  if cache_size ≤ cache.length then
    match cache with
    | [] => none
    | _ :: rest => some (dictInsert rest key resp)
  else
    some (dictInsert cache key resp)

/-- Bump the invocation count of provider type `t`. -/
def bumpCall (counts : ProviderType → Nat) (t : ProviderType) :
    ProviderType → Nat :=
  fun u => if u = t then counts u + 1 else counts u

/-- `LLMManager.generate`.  `elapsed` is the wall-clock latency measurement
the code stamps into the response (`(time.time() - start_time) * 1000`),
supplied as a parameter since time is an input of the model.  Selection
happens *outside* the `try`, so a selection failure propagates without
touching the error counter; a failure raised inside the `try` (the
provider call, or the `StopIteration` of `_update_cache` on a zero-size
cache) increments `errors` and re-raises. -/
def generate (elapsed : Rat) (st : ManagerState) (r : LLMRequest) :
    Except String LLMResponse × ManagerState :=
  let st1 := { st with requests_total := st.requests_total + 1 }
  let key := create_cache_key r
  match alookup st1.request_cache key with
  | some resp => (Except.ok resp, { st1 with cache_hits := st1.cache_hits + 1 })
  | none =>
    match select_optimal_provider st1.providers r with
    | Except.error e => (Except.error e, st1)
    | Except.ok (ptype, prov) =>
      let st2 := { st1 with call_counts := bumpCall st1.call_counts ptype }
      match prov.gen r with
      | Except.error e => (Except.error e, { st2 with errors := st2.errors + 1 })
      | Except.ok resp0 =>
        let resp := { resp0 with latency_ms := elapsed }
        match update_cache st2.cache_size st2.request_cache key resp with
        | none => (Except.error "StopIteration", { st2 with errors := st2.errors + 1 })
        | some cache2 => (Except.ok resp, { st2 with request_cache := cache2 })

/-- `RequestBatcher._execute_request`: run one queued item's own dispatch
and deliver its outcome into its future (`set_result` on success,
`set_exception` on failure) — exactly one outcome per item. -/
def execute_request (prov : LLMProvider) (r : LLMRequest) :
    Except String LLMResponse :=
  prov.gen r

/-- `RequestBatcher._process_batch`: the pending list is drained and every
`(request, provider, future)` triple is dispatched by its own
`_execute_request` task; `asyncio.gather(..., return_exceptions=True)`
keeps one item's failure from disturbing its siblings.  The value of each
item's future is the outcome of its own dispatch, in queue order. -/
def process_batch (batch : List (LLMRequest × LLMProvider)) :
    List (Except String LLMResponse) :=
  batch.map (fun rp => execute_request rp.2 rp.1)

/-- `RequestBatcher.add_request` as observed by a single caller with an
initially empty pending queue: the item is appended (queue length 1 <
batch size 5), the timeout fires, and `_process_batch` flushes the
one-element batch; the caller receives the single outcome. -/
def add_request (r : LLMRequest) (prov : LLMProvider) :
    Except String LLMResponse :=
  (process_batch [(r, prov)]).headD (Except.error "no result")

/-- State of an `EnhancedLLMManager`: the inherited `LLMManager` state plus
whether `_request_batcher` is set (`enable_batching`).  The provider pool
is write-only for the behavior under verification and is omitted. -/
structure EnhancedState where
  base : ManagerState
  batching_enabled : Bool

/-- `EnhancedLLMManager.generate`: with a batcher present it selects a
provider and hands the request to `add_request` — the inherited pipeline
(counters, cache lookup, latency stamping, cache insertion) is not
executed; without a batcher it defers to `LLMManager.generate`. -/
def enhancedGenerate (elapsed : Rat) (st : EnhancedState) (r : LLMRequest) :
    Except String LLMResponse × EnhancedState :=
  if st.batching_enabled then
    match select_optimal_provider st.base.providers r with
    | Except.error e => (Except.error e, st)
    | Except.ok (ptype, prov) =>
      let base2 := { st.base with call_counts := bumpCall st.base.call_counts ptype }
      (add_request r prov, { st with base := base2 })
  else
    let out := generate elapsed st.base r
    (out.1, { st with base := out.2 })

/-- A sequence of `_update_cache` calls, propagating the (unreachable for
positive capacity) `StopIteration` case. -/
def insertAll (cache_size : Nat) (cache : List (String × LLMResponse)) :
    List (String × LLMResponse) → Option (List (String × LLMResponse))
  | [] => some cache
  | (k, v) :: rest =>
    match update_cache cache_size cache k v with
    | none => none
    | some cache2 => insertAll cache_size cache2 rest

/-! Concrete fixtures used by witnesses and counterexamples. -/

/-- A deterministic mock response, as the test suite's `MockProvider`
builds one (latency filled by the dispatcher, not here). -/
def exResp (r : LLMRequest) : LLMResponse :=
  { content := "ok:" ++ r.prompt, provider := ProviderType.openai,
    tokens_used := 3, latency_ms := 0 }

/-- A healthy mock provider that always succeeds. -/
def exProvider : LLMProvider :=
  { gen := fun r => Except.ok (exResp r), healthy := true }

/-- A mock provider whose `health_check` returns `False`. -/
def exBadHealth : LLMProvider :=
  { gen := fun r => Except.ok (exResp r), healthy := false }

/-- A healthy mock provider whose `generate` always raises. -/
def exFailing : LLMProvider :=
  { gen := fun _ => Except.error "rate limit", healthy := true }

/-- `LLMManager(cache_size=2)` with one healthy provider registered. -/
def exManager : ManagerState :=
  register_provider (initManager 2) ProviderType.openai exProvider

/-- A plain request. -/
def exReq : LLMRequest := { prompt := "p1" }

/-- Same `(prompt, max_tokens, temperature)` as `exReq`, but different
metadata and provider preferences. -/
def exReqMeta : LLMRequest :=
  { prompt := "p1", provider_preferences := some [ProviderType.cohere],
    metadata := some [("k", "v")] }

/-- An unhealthy provider registered first, a healthy one second. -/
def exManager2 : ManagerState :=
  register_provider
    (register_provider (initManager 2) ProviderType.openai exBadHealth)
    ProviderType.anthropic exProvider

/-- `EnhancedLLMManager(cache_size=2, enable_batching=True)` with one
healthy provider. -/
def exEnh : EnhancedState := { base := exManager, batching_enabled := true }

/-- A manager whose only provider is healthy but always raises. -/
def exManagerFail : ManagerState :=
  register_provider (initManager 2) ProviderType.openai exFailing

/-- A request preferring an unregistered kind first, then a healthy one. -/
def exReqPref : LLMRequest :=
  { prompt := "p1",
    provider_preferences := some [ProviderType.cohere, ProviderType.anthropic] }

/-- Fixture responses for cache-level scenarios. -/
def ra : LLMResponse :=
  { content := "ra", provider := ProviderType.openai, tokens_used := 1, latency_ms := 0 }

/-- Fixture response. -/
def rb : LLMResponse :=
  { content := "rb", provider := ProviderType.openai, tokens_used := 1, latency_ms := 0 }

/-- Fixture response. -/
def rb2 : LLMResponse :=
  { content := "rb2", provider := ProviderType.openai, tokens_used := 1, latency_ms := 0 }

/-- Fixture response. -/
def rc : LLMResponse :=
  { content := "rc", provider := ProviderType.openai, tokens_used := 1, latency_ms := 0 }

/-- A two-item batch whose second item's dispatch fails. -/
def exBatch1 : List (LLMRequest × LLMProvider) :=
  [(exReq, exProvider), (exReq, exFailing)]

/-- A two-item batch agreeing with `exBatch1` at index 0 only. -/
def exBatch2 : List (LLMRequest × LLMProvider) :=
  [(exReq, exProvider), (exReqMeta, exProvider)]

end Manager

namespace CoreQueue

/-- Events observable while `RequestQueue.execute_with_retry` runs:
semaphore acquire/release, the underlying coroutine body actually
executing (`invoke`), and `asyncio.sleep` of the given number of backoff
units. -/
inductive RQEvent where
  | acquire
  | invoke
  | release
  | sleep (units : Nat)
deriving DecidableEq, Repr

/-- How a call to `execute_with_retry` ends: a normal `return` (with
`none` for Python's implicit `None` when the loop body never runs), a
raised exception, or blocking forever on a zero-slot semaphore. -/
inductive RQResult where
  | returned (v : Option String)
  | raised (e : String)
  | blocked
deriving DecidableEq, Repr

/-- Mutable state threaded through one `execute_with_retry` call: the
semaphore's available slots and whether the argument coroutine has already
been awaited (a CPython coroutine runs at most once; a second `await` of
the same object raises `RuntimeError`). -/
structure RQState where
  slots : Nat
  awaited : Bool
deriving DecidableEq, Repr

/-- The `RuntimeError` CPython raises on a second `await` of one
coroutine object. -/
def reuseMsg : String := "cannot reuse already awaited coroutine"

/-- `await coro` under coroutine semantics: the first await runs the body
once (`behavior 0`, where `behavior n` is the outcome the body would
produce on its `n`-th fresh execution); any later await raises the reuse
`RuntimeError` without running the body. -/
def awaitCoro (behavior : Nat → Except String String) (awaited : Bool) :
    Except String String × Bool × List RQEvent :=
  if awaited then (Except.error reuseMsg, true, [])
  else (behavior 0, true, [RQEvent.invoke])

/-- The `for attempt in range(self._max_retries)` loop of
`execute_with_retry`, with `remaining = max_retries - attempt` iterations
left.  Each iteration enters `acquire_slot()` (acquire, body, release in
`finally` — on success and on exception alike), returns the awaited value
on success, and on exception either re-raises (last attempt) or sleeps
`2 ** attempt` units — outside the `async with` — before the next
iteration.  Falling off the end of the loop returns `None`. -/
def runAttempts (behavior : Nat → Except String String) (max_retries : Nat) :
    Nat → RQState → RQResult × RQState × List RQEvent
  | 0, st => (RQResult.returned none, st, [])
  | remaining + 1, st =>
    if st.slots = 0 then (RQResult.blocked, st, []) else
    let stAcq : RQState := { st with slots := st.slots - 1 }
    let step := awaitCoro behavior stAcq.awaited
    let stRun : RQState := { stAcq with awaited := step.2.1 }
    let stRel : RQState := { stRun with slots := stRun.slots + 1 }
    let evs := RQEvent.acquire :: step.2.2 ++ [RQEvent.release]
    match step.1 with
    | Except.ok v => (RQResult.returned (some v), stRel, evs)
    | Except.error e =>
      if remaining = 0 then (RQResult.raised e, stRel, evs)
      else
        let attempt := max_retries - (remaining + 1)
        let rest := runAttempts behavior max_retries remaining stRel
        (rest.1, rest.2.1, evs ++ RQEvent.sleep (2 ^ attempt) :: rest.2.2)

/-- `RequestQueue.execute_with_retry(coro, provider_name)` for a queue
built with `max_concurrent` and `max_retries`, run by a single caller:
result, final state, and the event trace. -/
def execute_with_retry (behavior : Nat → Except String String)
    (max_concurrent max_retries : Nat) : RQResult × RQState × List RQEvent :=
  runAttempts behavior max_retries max_retries
    { slots := max_concurrent, awaited := false }

/-- Slot-discipline check over a trace, tracking the number of slots the
caller currently holds: the coroutine is only awaited while exactly one
slot is held, a backoff sleep happens with no slot held, and the trace
ends with no slot held. -/
def slotDiscipline : List RQEvent → Nat → Bool
  | [], held => held == 0
  | RQEvent.acquire :: rest, held => slotDiscipline rest (held + 1)
  | RQEvent.release :: rest, held => slotDiscipline rest (held - 1)
  | RQEvent.invoke :: rest, held => held == 1 && slotDiscipline rest held
  | RQEvent.sleep _ :: rest, held => held == 0 && slotDiscipline rest held

/-- A work item that fails on its first two fresh executions and would
succeed on the third — the retry scenario of the spec. -/
def c4behavior : Nat → Except String String :=
  fun n => if n < 2 then Except.error "boom" else Except.ok "done"

end CoreQueue

namespace Manager

theorem alookup_cons {κ α : Type} [DecidableEq κ] (a : κ × α) (m : List (κ × α))
    (k : κ) : alookup (a :: m) k = if a.1 = k then some a.2 else alookup m k := by
  cases a
  rfl

theorem alookup_append {κ α : Type} [DecidableEq κ] (m l : List (κ × α)) (k : κ) :
    alookup (m ++ l) k =
      match alookup m k with
      | some v => some v
      | none => alookup l k := by
  induction m with
  | nil => simp [alookup]
  | cons a tl ih =>
    rw [List.cons_append, alookup_cons, alookup_cons]
    by_cases h : a.1 = k
    · simp [h]
    · simp [h, ih]

theorem alookup_eq_none_of_not_mem {κ α : Type} [DecidableEq κ]
    {m : List (κ × α)} {k : κ} (h : k ∉ m.map Prod.fst) : alookup m k = none := by
  induction m with
  | nil => rfl
  | cons a tl ih =>
    simp only [List.map_cons, List.mem_cons] at h
    push_neg at h
    rw [alookup_cons, if_neg (fun hh => h.1 hh.symm)]
    exact ih h.2

theorem dictInsert_fresh {κ α : Type} [DecidableEq κ] {m : List (κ × α)} {k : κ}
    (v : α) (h : alookup m k = none) : dictInsert m k v = m ++ [(k, v)] := by
  simp [dictInsert, h]

theorem alookup_map_replace_self {κ α : Type} [DecidableEq κ]
    {m : List (κ × α)} {k : κ} (v : α) (hs : (alookup m k).isSome) :
    alookup (m.map (fun kv => if kv.1 = k then (k, v) else kv)) k = some v := by
  induction m with
  | nil => simp [alookup] at hs
  | cons a tl ih =>
    rw [List.map_cons]
    by_cases ha : a.1 = k
    · rw [if_pos ha, alookup_cons, if_pos rfl]
    · rw [if_neg ha, alookup_cons, if_neg ha]
      rw [alookup_cons, if_neg ha] at hs
      exact ih hs

theorem alookup_map_replace_ne {κ α : Type} [DecidableEq κ]
    (m : List (κ × α)) {k k' : κ} (v : α) (h : k' ≠ k) :
    alookup (m.map (fun kv => if kv.1 = k then (k, v) else kv)) k' = alookup m k' := by
  induction m with
  | nil => rfl
  | cons a tl ih =>
    rw [List.map_cons]
    by_cases ha : a.1 = k
    · rw [if_pos ha, alookup_cons, alookup_cons,
        if_neg (fun hh : k = k' => h hh.symm),
        if_neg (fun hh : a.1 = k' => h (ha ▸ hh).symm)]
      exact ih
    · rw [if_neg ha, alookup_cons, alookup_cons]
      by_cases hk' : a.1 = k'
      · rw [if_pos hk', if_pos hk']
      · rw [if_neg hk', if_neg hk']
        exact ih

theorem alookup_dictInsert_self {κ α : Type} [DecidableEq κ]
    (m : List (κ × α)) (k : κ) (v : α) :
    alookup (dictInsert m k v) k = some v := by
  unfold dictInsert
  cases hs : alookup m k with
  | some w =>
    exact alookup_map_replace_self v (by rw [hs]; rfl)
  | none =>
    rw [alookup_append, hs, alookup_cons, if_pos rfl]

theorem alookup_dictInsert_ne {κ α : Type} [DecidableEq κ]
    (m : List (κ × α)) {k k' : κ} (v : α) (h : k' ≠ k) :
    alookup (dictInsert m k v) k' = alookup m k' := by
  unfold dictInsert
  cases hs : alookup m k with
  | some w => exact alookup_map_replace_ne m v h
  | none =>
    rw [alookup_append]
    cases hk' : alookup m k' with
    | some w => rfl
    | none => rw [alookup_cons, if_neg (fun hh : k = k' => h hh.symm)]; rfl

theorem update_cache_some_shape {cap : Nat} {cache : List (String × LLMResponse)}
    {key : String} {resp : LLMResponse} {c : List (String × LLMResponse)}
    (h : update_cache cap cache key resp = some c) :
    ∃ m, c = dictInsert m key resp := by
  unfold update_cache at h
  by_cases hlen : cap ≤ cache.length
  · rw [if_pos hlen] at h
    cases cache with
    | nil => exact absurd h (by simp)
    | cons a tl =>
      exact ⟨tl, by simpa using h.symm⟩
  · rw [if_neg hlen] at h
    exact ⟨cache, by simpa using h.symm⟩

theorem insertAll_fresh (cap : Nat) (hcap : 1 ≤ cap) :
    ∀ (pairs cache : List (String × LLMResponse)),
      cache.length ≤ cap →
      ((cache ++ pairs).map Prod.fst).Nodup →
      insertAll cap cache pairs =
        some ((cache ++ pairs).drop ((cache ++ pairs).length - cap)) := by
  intro pairs
  induction pairs with
  | nil =>
    intro cache hlen _
    have h0 : cache.length - cap = 0 := Nat.sub_eq_zero_of_le hlen
    simp [insertAll, h0]
  | cons kv rest ih =>
    obtain ⟨k, v⟩ := kv
    intro cache hlen hnd
    have hnd' : (cache.map Prod.fst ++ k :: rest.map Prod.fst).Nodup := by
      simpa using hnd
    rw [List.nodup_append] at hnd'
    have hkcache : k ∉ cache.map Prod.fst := fun hmem =>
      hnd'.2.2 hmem (List.mem_cons_self k (rest.map Prod.fst))
    have halk : alookup cache k = none := alookup_eq_none_of_not_mem hkcache
    by_cases hge : cap ≤ cache.length
    · have hcl : cache.length = cap := le_antisymm hlen hge
      cases cache with
      | nil => simp at hcl; omega
      | cons a tl =>
        have htlk : alookup tl k = none := by
          apply alookup_eq_none_of_not_mem
          intro hm
          exact hkcache (by simp [hm])
        have hstep : update_cache cap (a :: tl) k v = some (tl ++ [(k, v)]) := by
          unfold update_cache
          rw [if_pos hge]
          exact congrArg some (dictInsert_fresh v htlk)
        have hnd2 : (((tl ++ [(k, v)]) ++ rest).map Prod.fst).Nodup := by
          have : ((a :: tl ++ (k, v) :: rest).map Prod.fst).Nodup := hnd
          simp only [List.cons_append, List.map_cons] at this
          have := this.of_cons
          simpa using this
        have hlen2 : (tl ++ [(k, v)]).length ≤ cap := by
          simp at hcl ⊢
          omega
        have := ih (tl ++ [(k, v)]) hlen2 hnd2
        simp only [insertAll, hstep]
        rw [this]
        congr 1
        have e1 : (tl ++ [(k, v)]) ++ rest = tl ++ (k, v) :: rest := by
          simp
        rw [e1]
        have e2 : (a :: tl ++ (k, v) :: rest) = a :: (tl ++ (k, v) :: rest) := by
          simp
        rw [e2]
        have hL : (a :: (tl ++ (k, v) :: rest)).length - cap =
            ((tl ++ (k, v) :: rest).length - cap) + 1 := by
          simp at hcl ⊢
          omega
        rw [hL, List.drop_succ_cons]
    · have hstep : update_cache cap cache k v = some (cache ++ [(k, v)]) := by
        unfold update_cache
        rw [if_neg hge, dictInsert_fresh v halk]
      have hnd2 : (((cache ++ [(k, v)]) ++ rest).map Prod.fst).Nodup := by
        simpa using hnd
      have hlen2 : (cache ++ [(k, v)]).length ≤ cap := by
        simp
        omega
      have := ih (cache ++ [(k, v)]) hlen2 hnd2
      simp only [insertAll, hstep]
      rw [this]
      congr 1
      all_goals simp

theorem dictInsert_length_le {κ α : Type} [DecidableEq κ]
    (m : List (κ × α)) (k : κ) (v : α) :
    (dictInsert m k v).length ≤ m.length + 1 := by
  unfold dictInsert
  cases alookup m k with
  | some w => simp
  | none => simp

theorem update_cache_length (cap : Nat) (hcap : 1 ≤ cap)
    (cache : List (String × LLMResponse)) (key : String) (resp : LLMResponse)
    (hlen : cache.length ≤ cap) :
    ∃ c2, update_cache cap cache key resp = some c2 ∧ c2.length ≤ cap := by
  unfold update_cache
  by_cases hge : cap ≤ cache.length
  · rw [if_pos hge]
    cases cache with
    | nil => simp at hge; omega
    | cons a tl =>
      refine ⟨dictInsert tl key resp, rfl, ?_⟩
      have := dictInsert_length_le tl key resp
      simp at hlen
      omega
  · rw [if_neg hge]
    refine ⟨dictInsert cache key resp, rfl, ?_⟩
    have := dictInsert_length_le cache key resp
    omega

theorem insertAll_bounded (cap : Nat) (hcap : 1 ≤ cap) :
    ∀ (pairs cache : List (String × LLMResponse)), cache.length ≤ cap →
      ∃ c2, insertAll cap cache pairs = some c2 ∧ c2.length ≤ cap := by
  intro pairs
  induction pairs with
  | nil => intro cache hlen; exact ⟨cache, rfl, hlen⟩
  | cons kv rest ih =>
    intro cache hlen
    obtain ⟨k, v⟩ := kv
    obtain ⟨c1, hc1, hlen1⟩ := update_cache_length cap hcap cache k v hlen
    obtain ⟨c2, hc2, hlen2⟩ := ih c1 hlen1
    refine ⟨c2, ?_, hlen2⟩
    simp only [insertAll, hc1]
    exact hc2

/-- Claim C2: after *any* sequence of insertions from an empty cache —
duplicate fingerprints included — the cache holds at most `capacity`
entries; a sequence of insertions with pairwise-distinct fingerprints
leaves the cache holding exactly the most recent `min N capacity` entries,
in order — so it holds exactly `capacity` once `N ≥ capacity`, and each
eviction removed the oldest-inserted entry still resident (the suffix
characterisation); moreover a single insertion at capacity evicts
precisely the head — the oldest-inserted — entry. -/
theorem cache_bounded_fifo (cap : Nat) (pairs : List (String × LLMResponse))
    (hcap : 1 ≤ cap) (hnd : (pairs.map Prod.fst).Nodup) :
    (∀ dups : List (String × LLMResponse),
      ∃ c, insertAll cap [] dups = some c ∧ c.length ≤ cap) ∧
    insertAll cap [] pairs = some (pairs.drop (pairs.length - cap)) ∧
    (pairs.drop (pairs.length - cap)).length = min pairs.length cap ∧
    (∀ (c : List (String × LLMResponse)) (k : String) (v : LLMResponse) Y YS,
      c = Y :: YS → cap ≤ c.length →
      update_cache cap c k v = some (dictInsert YS k v)) := by
  refine ⟨?_, ?_, ?_, ?_⟩
  · intro dups
    exact insertAll_bounded cap hcap dups [] (by simp)
  · simpa using insertAll_fresh cap hcap pairs [] (by simp) (by simpa using hnd)
  · rw [List.length_drop]
    omega
  · intro c k v Y YS hc hlen
    subst hc
    unfold update_cache
    rw [if_pos hlen]

/-- Witness for C2 at capacity 2: a four-insertion sequence with repeated
fingerprints (`a, a, b, a`) stays within the bound, and three distinct
fingerprints leave exactly the last two insertions resident, in insertion
order. -/
theorem cache_bounded_fifo_witness :
    (∃ c, insertAll 2 [] [("a", ra), ("a", rb), ("b", rb), ("a", rc)] =
        some c ∧ c.length ≤ 2) ∧
    insertAll 2 [] [("a", ra), ("b", rb), ("c", rc)] =
      some [("b", rb), ("c", rc)] ∧
    ([("b", rb), ("c", rc)] : List (String × LLMResponse)).length = 2 ∧
    update_cache 2 [("a", ra), ("b", rb)] "c" rc =
      some (dictInsert [("b", rb)] "c" rc) :=
  ⟨(cache_bounded_fifo 2 [("a", ra), ("b", rb), ("c", rc)] (by decide)
      (by decide)).1 [("a", ra), ("a", rb), ("b", rb), ("a", rc)],
   (cache_bounded_fifo 2 [("a", ra), ("b", rb), ("c", rc)] (by decide)
      (by decide)).2.1,
   (cache_bounded_fifo 2 [("a", ra), ("b", rb), ("c", rc)] (by decide)
      (by decide)).2.2.1,
   (cache_bounded_fifo 2 [("a", ra), ("b", rb), ("c", rc)] (by decide)
      (by decide)).2.2.2 [("a", ra), ("b", rb)] "c" rc ("a", ra) [("b", rb)]
      rfl (by decide)⟩

/-- Claim C7 counterexample: at capacity, inserting a fingerprint that is
*already resident* still evicts the oldest entry — with capacity 2 and
resident fingerprints `a` then `b`, re-inserting `b` removes the entry for
`a`, so an insertion whose fingerprint is already present does not leave
every other cache entry in place. -/
theorem insert_present_at_capacity_evicts_other :
    update_cache 2 [("a", ra), ("b", rb)] "b" rb2 = some [("b", rb2)] ∧
    alookup ([("b", rb2)] : List (String × LLMResponse)) "a" = none := by
  exact ⟨by decide, by decide⟩

/-- Claim C7 (amended): with positive capacity, cache insert never fails;
below capacity an insertion evicts nothing — a present fingerprint is
replaced in place and every other entry's binding is unchanged — but an
insertion that occurs when the cache has reached capacity always evicts
the oldest-inserted entry, whether or not the inserted fingerprint is
already present. -/
theorem update_cache_frame (cap : Nat) (cache : List (String × LLMResponse))
    (key : String) (resp : LLMResponse) (hcap : 1 ≤ cap) :
    (update_cache cap cache key resp).isSome = true ∧
    (cache.length < cap →
      update_cache cap cache key resp = some (dictInsert cache key resp) ∧
      ∀ k, k ≠ key →
        alookup (dictInsert cache key resp) k = alookup cache k) ∧
    (∀ Y YS, cache = Y :: YS → cap ≤ cache.length →
      update_cache cap cache key resp = some (dictInsert YS key resp)) := by
  refine ⟨?_, ?_, ?_⟩
  · unfold update_cache
    by_cases hlen : cap ≤ cache.length
    · rw [if_pos hlen]
      cases cache with
      | nil => simp at hlen; omega
      | cons a tl => rfl
    · rw [if_neg hlen]
      rfl
  · intro hlt
    refine ⟨?_, ?_⟩
    · unfold update_cache
      rw [if_neg (by omega)]
    · intro k hk
      exact alookup_dictInsert_ne cache resp hk
  · intro Y YS hc hlen
    subst hc
    unfold update_cache
    rw [if_pos hlen]

/-- Witness for C7 (amended): below capacity, inserting fingerprint `b`
into a cache holding only `a` leaves `a`'s binding unchanged; at capacity,
inserting evicts the head entry. -/
theorem update_cache_frame_witness :
    (update_cache 2 [("a", ra)] "b" rb).isSome = true ∧
    update_cache 2 [("a", ra)] "b" rb = some (dictInsert [("a", ra)] "b" rb) ∧
    alookup (dictInsert [("a", ra)] "b" rb) "a" =
      alookup ([("a", ra)] : List (String × LLMResponse)) "a" ∧
    update_cache 2 [("a", ra), ("b", rb)] "c" rc =
      some (dictInsert [("b", rb)] "c" rc) :=
  ⟨(update_cache_frame 2 [("a", ra)] "b" rb (by decide)).1,
   ((update_cache_frame 2 [("a", ra)] "b" rb (by decide)).2.1 (by decide)).1,
   ((update_cache_frame 2 [("a", ra)] "b" rb (by decide)).2.1 (by decide)).2
     "a" (by decide),
   (update_cache_frame 2 [("a", ra), ("b", rb)] "c" rc (by decide)).2.2
     ("a", ra) [("b", rb)] rfl (by decide)⟩

/-- Claim C8: for every flushed batch, each queued caller receives exactly
one outcome — the outcome of its own dispatch, in queue position — and a
sibling item's dispatch (success or failure) does not change it: the
outcome at a position depends only on the item at that position. -/
theorem batch_outcomes_independent
    (batch batch' : List (LLMRequest × LLMProvider)) (i : Nat)
    (h : batch[i]? = batch'[i]?) :
    (process_batch batch).length = batch.length ∧
    (process_batch batch)[i]? =
      (batch[i]?).map (fun rp => execute_request rp.2 rp.1) ∧
    (process_batch batch)[i]? = (process_batch batch')[i]? := by
  refine ⟨List.length_map _ _, ?_, ?_⟩
  · simp [process_batch]
  · simp [process_batch, h]

/-- Witness for C8 at a concrete batch pair: `exBatch1` and `exBatch2`
agree at index 0 and differ at index 1 (the sibling fails in one and
succeeds in the other); the caller at index 0 gets its own successful
outcome either way. -/
theorem batch_outcomes_independent_witness :
    exBatch1[0]? = exBatch2[0]? ∧
    ((process_batch exBatch1).length = exBatch1.length ∧
     (process_batch exBatch1)[0]? =
       (exBatch1[0]?).map (fun rp => execute_request rp.2 rp.1) ∧
     (process_batch exBatch1)[0]? = (process_batch exBatch2)[0]?) :=
  ⟨rfl, batch_outcomes_independent exBatch1 exBatch2 0 rfl⟩

end Manager

namespace CoreQueue

/-- Claim C4 (divergence at the failing input): with `max_retries = 3` and
a work item that fails on its first execution and would succeed on a
third, `execute_with_retry` does not yield the success after three
attempts — the argument coroutine is awaited again on retry, which in
CPython raises `RuntimeError` instead of re-running the body, so the body
runs exactly once and the call re-raises the reuse error. -/
theorem retry_cannot_rerun_coroutine :
    (execute_with_retry c4behavior 5 3).1 = RQResult.raised reuseMsg ∧
    ((execute_with_retry c4behavior 5 3).2.2.count RQEvent.invoke) = 1 ∧
    c4behavior 2 = Except.ok "done" := by
  refine ⟨by decide, by decide, rfl⟩

theorem runAttempts_slots_and_discipline
    (behavior : Nat → Except String String) (m : Nat) :
    ∀ (fuel : Nat) (st : RQState),
      (runAttempts behavior m fuel st).2.1.slots = st.slots ∧
      slotDiscipline (runAttempts behavior m fuel st).2.2 0 = true := by
  intro fuel
  induction fuel with
  | zero => intro st; simp [runAttempts, slotDiscipline]
  | succ n ih =>
    intro st
    by_cases h0 : st.slots = 0
    · simp [runAttempts, h0, slotDiscipline]
    · have hs : st.slots - 1 + 1 = st.slots :=
        Nat.succ_pred_eq_of_pos (Nat.pos_of_ne_zero h0)
      by_cases ha : st.awaited
      · by_cases hr : n = 0
        · simp [runAttempts, h0, ha, hr, awaitCoro, slotDiscipline, hs]
        · have := ih { st with slots := st.slots - 1 + 1, awaited := true }
          simp only [runAttempts, h0, if_false, awaitCoro, ha, if_true, hr,
            if_neg hr]
          simp_all [slotDiscipline, hs]
      · cases hb : behavior 0 with
        | ok v =>
          simp [runAttempts, h0, ha, awaitCoro, hb, slotDiscipline, hs]
        | error e =>
          by_cases hr : n = 0
          · simp [runAttempts, h0, ha, awaitCoro, hb, hr, slotDiscipline, hs]
          · have := ih { st with slots := st.slots - 1 + 1, awaited := true }
            simp only [runAttempts, h0, if_false, awaitCoro, ha, hb,
              if_neg hr]
            simp_all [slotDiscipline, hs]

/-- Claim C9: across one `execute_with_retry` call the admission gate is
balanced — a slot is held exactly while the work is awaited (`invoke`
events happen with one slot held), every backoff sleep happens with no
slot held, the trace ends with no slot held, and the semaphore's
available-slot count after the call equals its value before it. -/
theorem execute_with_retry_slot_balance
    (behavior : Nat → Except String String) (mc mr : Nat) :
    (execute_with_retry behavior mc mr).2.1.slots = mc ∧
    slotDiscipline (execute_with_retry behavior mc mr).2.2 0 = true :=
  runAttempts_slots_and_discipline behavior mr mr { slots := mc, awaited := false }

/-- Claim C10: with `max_retries = 0` the `for attempt in range(0)` loop
body never runs: `execute_with_retry` falls off the loop and returns
`None`, the coroutine is never awaited, and the trace is empty — no slot
is ever acquired and the work is never invoked. -/
theorem zero_max_retries_returns_none
    (behavior : Nat → Except String String) (mc : Nat) :
    execute_with_retry behavior mc 0 =
      (RQResult.returned none, { slots := mc, awaited := false }, []) := rfl

end CoreQueue

namespace Manager

theorem generate_ok_lookup (e : Rat) (st : ManagerState) (r : LLMRequest)
    (resp : LLMResponse) (h : (generate e st r).1 = Except.ok resp) :
    alookup (generate e st r).2.request_cache (create_cache_key r) = some resp := by
  simp only [generate] at h ⊢
  cases hl : alookup st.request_cache (create_cache_key r) with
  | some x =>
    simp only [hl] at h ⊢
    simp_all
  | none =>
    simp only [hl] at h ⊢
    cases hsel : select_optimal_provider st.providers r with
    | error msg => simp [hsel] at h
    | ok pp =>
      obtain ⟨pt, prov⟩ := pp
      simp only [hsel] at h ⊢
      cases hg : prov.gen r with
      | error msg => simp [hg] at h
      | ok resp0 =>
        simp only [hg] at h ⊢
        cases hu : update_cache st.cache_size st.request_cache
            (create_cache_key r) { resp0 with latency_ms := e } with
        | none => simp [hu] at h
        | some c2 =>
          simp only [hu] at h ⊢
          simp only [Except.ok.injEq] at h
          obtain ⟨m, hm⟩ := update_cache_some_shape hu
          subst hm
          simp only [← h]
          exact alookup_dictInsert_self m (create_cache_key r)
            { resp0 with latency_ms := e }

/-- Claim C1: if a `generate` call succeeds, a second call whose request
agrees with the first on `(prompt, max_tokens, temperature)` — whatever
its metadata or provider preferences — returns the very same `Response`,
invokes no registered provider (every call count is unchanged), and bumps
the cache-hit counter and the total-request counter by exactly one each. -/
theorem repeat_request_served_from_cache
    (e1 e2 : Rat) (st : ManagerState) (r1 r2 : LLMRequest) (resp : LLMResponse)
    (hp : r2.prompt = r1.prompt) (hm : r2.max_tokens = r1.max_tokens)
    (ht : r2.temperature = r1.temperature)
    (h1 : (generate e1 st r1).1 = Except.ok resp) :
    (generate e2 (generate e1 st r1).2 r2).1 = Except.ok resp ∧
    (generate e2 (generate e1 st r1).2 r2).2.cache_hits =
      (generate e1 st r1).2.cache_hits + 1 ∧
    (generate e2 (generate e1 st r1).2 r2).2.requests_total =
      (generate e1 st r1).2.requests_total + 1 ∧
    (∀ t, (generate e2 (generate e1 st r1).2 r2).2.call_counts t =
      (generate e1 st r1).2.call_counts t) := by
  have hkey : create_cache_key r2 = create_cache_key r1 := by
    unfold create_cache_key
    rw [hp, hm, ht]
  have hl : alookup (generate e1 st r1).2.request_cache (create_cache_key r2) =
      some resp := by
    rw [hkey]
    exact generate_ok_lookup e1 st r1 resp h1
  set st1 := (generate e1 st r1).2 with hst1
  refine ⟨?_, ?_, ?_, ?_⟩
  all_goals simp [generate, hl]

/-- Witness for C1: after a successful call on `exReq`, the same
`(prompt, max_tokens, temperature)` re-issued with different metadata and
preferences (`exReqMeta`) is served from the cache. -/
theorem repeat_request_served_from_cache_witness :
    (generate 7 (generate 5 exManager exReq).2 exReqMeta).1 =
      Except.ok { exResp exReq with latency_ms := 5 } ∧
    (generate 7 (generate 5 exManager exReq).2 exReqMeta).2.cache_hits =
      (generate 5 exManager exReq).2.cache_hits + 1 ∧
    (generate 7 (generate 5 exManager exReq).2 exReqMeta).2.requests_total =
      (generate 5 exManager exReq).2.requests_total + 1 ∧
    (generate 7 (generate 5 exManager exReq).2 exReqMeta).2.call_counts
        ProviderType.openai =
      (generate 5 exManager exReq).2.call_counts ProviderType.openai := by
  have h := repeat_request_served_from_cache 5 7 exManager exReq exReqMeta
    { exResp exReq with latency_ms := 5 } rfl rfl rfl rfl
  exact ⟨h.1, h.2.1, h.2.2.1, h.2.2.2 ProviderType.openai⟩

/-- Claim C6 counterexample: with zero providers registered, `generate`
fails with the "no healthy providers" condition, yet the error counter is
*not* incremented (selection happens before the `try` block), refuting
"every generate call that terminates in failure increments the error
counter exactly once". -/
theorem exhaustion_failure_skips_error_counter :
    (generate 5 (initManager 2) exReq).1 =
      Except.error "No healthy providers available" ∧
    (generate 5 (initManager 2) exReq).2.errors = 0 ∧
    (generate 5 (initManager 2) exReq).2.requests_total = 1 ∧
    (generate 5 (initManager 2) exReq).2.request_cache = [] :=
  ⟨rfl, rfl, rfl, rfl⟩

/-- Claim C6 (amended): every failing `generate` call leaves the request
cache unchanged and propagates the failure; a failure raised by the
provider call increments the error counter exactly once, but the
no-healthy-providers selection failure — raised before the `try` block —
propagates without incrementing the error counter. -/
theorem generate_failure_accounting (e : Rat) (st : ManagerState)
    (r : LLMRequest) :
    (∀ msg, (generate e st r).1 = Except.error msg →
      (generate e st r).2.request_cache = st.request_cache) ∧
    (alookup st.request_cache (create_cache_key r) = none →
      select_optimal_provider st.providers r =
        Except.error "No healthy providers available" →
      (generate e st r).1 = Except.error "No healthy providers available" ∧
      (generate e st r).2.errors = st.errors) ∧
    (∀ pt prov msg, alookup st.request_cache (create_cache_key r) = none →
      select_optimal_provider st.providers r = Except.ok (pt, prov) →
      prov.gen r = Except.error msg →
      (generate e st r).1 = Except.error msg ∧
      (generate e st r).2.errors = st.errors + 1 ∧
      (generate e st r).2.requests_total = st.requests_total + 1) := by
  refine ⟨?_, ?_, ?_⟩
  · intro msg h
    simp only [generate] at h ⊢
    cases hl : alookup st.request_cache (create_cache_key r) with
    | some x => simp [hl] at h
    | none =>
      simp only [hl] at h ⊢
      cases hsel : select_optimal_provider st.providers r with
      | error m2 => simp [hsel]
      | ok pp =>
        obtain ⟨pt, prov⟩ := pp
        simp only [hsel] at h ⊢
        cases hg : prov.gen r with
        | error m2 => simp [hg]
        | ok resp0 =>
          simp only [hg] at h ⊢
          cases hu : update_cache st.cache_size st.request_cache
              (create_cache_key r) { resp0 with latency_ms := e } with
          | none => simp [hu]
          | some c2 => simp [hu] at h
  · intro hl hsel
    constructor <;> simp [generate, hl, hsel]
  · intro pt prov msg hl hsel hg
    refine ⟨?_, ?_, ?_⟩ <;> simp [generate, hl, hsel, hg]

/-- Witness for C6 (amended) at concrete states: a provider-raised failure
(`exManagerFail`) bumps the error counter and leaves the cache unchanged;
the exhaustion failure (`initManager 2`, no providers) leaves it at 0. -/
theorem generate_failure_accounting_witness :
    ((generate 5 exManagerFail exReq).2.request_cache =
      exManagerFail.request_cache) ∧
    ((generate 5 (initManager 2) exReq).1 =
        Except.error "No healthy providers available" ∧
      (generate 5 (initManager 2) exReq).2.errors = (initManager 2).errors) ∧
    ((generate 5 exManagerFail exReq).1 = Except.error "rate limit" ∧
      (generate 5 exManagerFail exReq).2.errors = exManagerFail.errors + 1 ∧
      (generate 5 exManagerFail exReq).2.requests_total =
        exManagerFail.requests_total + 1) :=
  ⟨(generate_failure_accounting 5 exManagerFail exReq).1 "rate limit" rfl,
   (generate_failure_accounting 5 (initManager 2) exReq).2.1 rfl rfl,
   (generate_failure_accounting 5 exManagerFail exReq).2.2
     ProviderType.openai exFailing "rate limit" rfl rfl rfl⟩

/-- Claim C5 counterexample: with batching enabled, a successful
`generate` call performs none of the dispatcher pipeline — here the call
succeeds but the total-request counter stays 0 (the claim requires 1), the
cache stays empty (the claim requires the response to be inserted), and
the response's latency field keeps the provider's value 0 rather than the
measured 5. -/
theorem batching_call_skips_pipeline :
    (enhancedGenerate 5 exEnh exReq).1 = Except.ok (exResp exReq) ∧
    (exResp exReq).latency_ms = 0 ∧
    (enhancedGenerate 5 exEnh exReq).2.base.requests_total = 0 ∧
    (enhancedGenerate 5 exEnh exReq).2.base.request_cache = [] :=
  ⟨rfl, rfl, rfl, rfl⟩

/-- Claim C5 (amended): when batching is enabled, `generate` bypasses the
inherited dispatcher pipeline entirely — it selects a provider and routes
the request through the batcher, returning the provider's own outcome with
no counter increment, no cache lookup or insertion, and no latency
stamping. -/
theorem batching_bypasses_pipeline (e : Rat) (st : EnhancedState)
    (r : LLMRequest) (hb : st.batching_enabled = true) :
    (enhancedGenerate e st r).2.base.requests_total =
      st.base.requests_total ∧
    (enhancedGenerate e st r).2.base.cache_hits = st.base.cache_hits ∧
    (enhancedGenerate e st r).2.base.errors = st.base.errors ∧
    (enhancedGenerate e st r).2.base.request_cache = st.base.request_cache ∧
    (∀ pt prov,
      select_optimal_provider st.base.providers r = Except.ok (pt, prov) →
      (enhancedGenerate e st r).1 = prov.gen r) ∧
    (∀ msg,
      select_optimal_provider st.base.providers r = Except.error msg →
      (enhancedGenerate e st r).1 = Except.error msg) := by
  refine ⟨?_, ?_, ?_, ?_, ?_, ?_⟩
  · cases hsel : select_optimal_provider st.base.providers r with
    | error m => simp [enhancedGenerate, hb, hsel]
    | ok pp => obtain ⟨pt, prov⟩ := pp; simp [enhancedGenerate, hb, hsel]
  · cases hsel : select_optimal_provider st.base.providers r with
    | error m => simp [enhancedGenerate, hb, hsel]
    | ok pp => obtain ⟨pt, prov⟩ := pp; simp [enhancedGenerate, hb, hsel]
  · cases hsel : select_optimal_provider st.base.providers r with
    | error m => simp [enhancedGenerate, hb, hsel]
    | ok pp => obtain ⟨pt, prov⟩ := pp; simp [enhancedGenerate, hb, hsel]
  · cases hsel : select_optimal_provider st.base.providers r with
    | error m => simp [enhancedGenerate, hb, hsel]
    | ok pp => obtain ⟨pt, prov⟩ := pp; simp [enhancedGenerate, hb, hsel]
  · intro pt prov hsel
    simp [enhancedGenerate, hb, hsel, add_request, process_batch,
      execute_request]
  · intro msg hsel
    simp [enhancedGenerate, hb, hsel]

/-- Witness for C5 (amended) at `exEnh`: selection returns the healthy
provider and the batched call returns that provider's own outcome while
the total-request counter is untouched. -/
theorem batching_bypasses_pipeline_witness :
    (enhancedGenerate 5 exEnh exReq).2.base.requests_total =
      exEnh.base.requests_total ∧
    (enhancedGenerate 5 exEnh exReq).2.base.request_cache =
      exEnh.base.request_cache ∧
    (enhancedGenerate 5 exEnh exReq).1 = exProvider.gen exReq :=
  ⟨(batching_bypasses_pipeline 5 exEnh exReq rfl).1,
   (batching_bypasses_pipeline 5 exEnh exReq rfl).2.2.2.1,
   (batching_bypasses_pipeline 5 exEnh exReq rfl).2.2.2.2.1
     ProviderType.openai exProvider rfl⟩

end Manager

namespace Manager

theorem mem_of_alookup {κ α : Type} [DecidableEq κ] :
    ∀ (m : List (κ × α)) (k : κ) (v : α), alookup m k = some v → (k, v) ∈ m := by
  intro m
  induction m with
  | nil => intro k v h; cases h
  | cons a tl ih =>
    intro k v h
    obtain ⟨a1, a2⟩ := a
    simp only [alookup] at h
    by_cases ha : a1 = k
    · rw [if_pos ha] at h
      obtain rfl := Option.some.inj h
      subst ha
      exact List.mem_cons_self _ _
    · rw [if_neg ha] at h
      exact List.mem_cons_of_mem _ (ih k v h)

theorem alookup_of_mem_nodup {κ α : Type} [DecidableEq κ] :
    ∀ (m : List (κ × α)) (k : κ) (v : α),
      (m.map Prod.fst).Nodup → (k, v) ∈ m → alookup m k = some v := by
  intro m
  induction m with
  | nil => intro k v _ h; cases h
  | cons a tl ih =>
    intro k v hnd hm
    obtain ⟨a1, a2⟩ := a
    simp only [List.map_cons, List.nodup_cons] at hnd
    rw [List.mem_cons] at hm
    simp only [alookup]
    rcases hm with heq | hmem
    · injection heq with e1 e2
      subst e1
      subst e2
      simp
    · by_cases ha : a1 = k
      · exfalso
        subst ha
        exact hnd.1 (List.mem_map.mpr ⟨(a1, v), hmem, rfl⟩)
      · rw [if_neg ha]
        exact ih k v hnd.2 hmem

theorem findPrefProvider_skip (providers : List (ProviderType × LLMProvider)) :
    ∀ (pre rest : List ProviderType),
      (∀ q ∈ pre, regHealthy providers q = false) →
      findPrefProvider providers (pre ++ rest) =
        findPrefProvider providers rest := by
  intro pre
  induction pre with
  | nil => intro rest _; rfl
  | cons q tl ih =>
    intro rest hpre
    rw [List.cons_append]
    simp only [findPrefProvider]
    cases hal : alookup providers q with
    | some prov =>
      have hq2 : prov.healthy = false := by
        have hq := hpre q (List.mem_cons_self q tl)
        unfold regHealthy at hq
        rw [hal] at hq
        exact hq
      show (if prov.healthy = true then some (q, prov)
          else findPrefProvider providers (tl ++ rest)) =
        findPrefProvider providers rest
      rw [if_neg (by simp [hq2])]
      exact ih rest (fun x hx => hpre x (List.mem_cons_of_mem q hx))
    | none =>
      show findPrefProvider providers (tl ++ rest) =
        findPrefProvider providers rest
      exact ih rest (fun x hx => hpre x (List.mem_cons_of_mem q hx))

theorem findPrefProvider_none (providers : List (ProviderType × LLMProvider))
    (prefs : List ProviderType)
    (h : ∀ q ∈ prefs, regHealthy providers q = false) :
    findPrefProvider providers prefs = none := by
  have := findPrefProvider_skip providers prefs [] h
  simpa using this

theorem findPrefProvider_hit (providers : List (ProviderType × LLMProvider))
    (p : ProviderType) (post : List ProviderType) (prov : LLMProvider)
    (hal : alookup providers p = some prov) (hh : prov.healthy = true) :
    findPrefProvider providers (p :: post) = some (p, prov) := by
  simp only [findPrefProvider, hal, hh]
  rfl

theorem findPrefProvider_sound (providers : List (ProviderType × LLMProvider)) :
    ∀ (prefs : List ProviderType) (pt : ProviderType) (prov : LLMProvider),
      findPrefProvider providers prefs = some (pt, prov) →
      alookup providers pt = some prov ∧ prov.healthy = true := by
  intro prefs
  induction prefs with
  | nil => intro pt prov h; cases h
  | cons q tl ih =>
    intro pt prov h
    simp only [findPrefProvider] at h
    cases hal : alookup providers q with
    | some pv =>
      rw [hal] at h
      have h2 : (if pv.healthy = true then some (q, pv)
          else findPrefProvider providers tl) = some (pt, prov) := h
      by_cases hh : pv.healthy
      · rw [if_pos hh] at h2
        have h3 : (q, pv) = (pt, prov) := Option.some.inj h2
        injection h3 with e1 e2
        subst e1
        subst e2
        exact ⟨hal, hh⟩
      · rw [if_neg hh] at h2
        exact ih pt prov h2
    | none =>
      rw [hal] at h
      exact ih pt prov h

theorem findFirstHealthy_skip :
    ∀ (pre rest : List (ProviderType × LLMProvider)),
      (∀ up ∈ pre, up.2.healthy = false) →
      findFirstHealthy (pre ++ rest) = findFirstHealthy rest := by
  intro pre
  induction pre with
  | nil => intro rest _; rfl
  | cons a tl ih =>
    intro rest hpre
    obtain ⟨t, prov⟩ := a
    have hu : prov.healthy = false := hpre (t, prov) (List.mem_cons_self _ tl)
    rw [List.cons_append]
    simp only [findFirstHealthy]
    rw [if_neg (by simp [hu])]
    exact ih rest (fun x hx => hpre x (List.mem_cons_of_mem _ hx))

theorem findFirstHealthy_cons_hit (t : ProviderType) (prov : LLMProvider)
    (rest : List (ProviderType × LLMProvider)) (hh : prov.healthy = true) :
    findFirstHealthy ((t, prov) :: rest) = some (t, prov) := by
  simp [findFirstHealthy, hh]

theorem findFirstHealthy_sound :
    ∀ (providers : List (ProviderType × LLMProvider)) (pt : ProviderType)
      (prov : LLMProvider),
      findFirstHealthy providers = some (pt, prov) →
      (pt, prov) ∈ providers ∧ prov.healthy = true := by
  intro providers
  induction providers with
  | nil => intro pt prov h; cases h
  | cons a tl ih =>
    intro pt prov h
    obtain ⟨t2, p2⟩ := a
    simp only [findFirstHealthy] at h
    by_cases hh : p2.healthy
    · rw [if_pos hh] at h
      have h3 : (t2, p2) = (pt, prov) := Option.some.inj h
      injection h3 with e1 e2
      subst e1
      subst e2
      exact ⟨List.mem_cons_self _ _, hh⟩
    · rw [if_neg hh] at h
      obtain ⟨hm, hhh⟩ := ih pt prov h
      exact ⟨List.mem_cons_of_mem _ hm, hhh⟩

theorem select_ok_sound (providers : List (ProviderType × LLMProvider))
    (r : LLMRequest) (pt : ProviderType) (prov : LLMProvider)
    (hnd : (providers.map Prod.fst).Nodup)
    (h : select_optimal_provider providers r = Except.ok (pt, prov)) :
    alookup providers pt = some prov ∧ prov.healthy = true := by
  simp only [select_optimal_provider] at h
  cases hp : r.provider_preferences with
  | none =>
    rw [hp] at h
    have h1 : (match findFirstHealthy providers with
        | some pp => Except.ok pp
        | none => (Except.error "No healthy providers available" :
            Except String (ProviderType × LLMProvider))) =
        Except.ok (pt, prov) := h
    cases hf : findFirstHealthy providers with
    | none => rw [hf] at h1; cases h1
    | some pp =>
      rw [hf] at h1
      obtain ⟨t2, p2⟩ := pp
      have h3 : (t2, p2) = (pt, prov) := by
        have h2 : (Except.ok (t2, p2) :
            Except String (ProviderType × LLMProvider)) = Except.ok (pt, prov) := h1
        exact Except.ok.inj h2
      injection h3 with e1 e2
      subst e1
      subst e2
      obtain ⟨hm, hh⟩ := findFirstHealthy_sound providers t2 p2 hf
      exact ⟨alookup_of_mem_nodup providers t2 p2 hnd hm, hh⟩
  | some prefs =>
    rw [hp] at h
    have h0 : (match findPrefProvider providers prefs with
        | some pp => (Except.ok pp :
            Except String (ProviderType × LLMProvider))
        | none =>
          match findFirstHealthy providers with
          | some pp => Except.ok pp
          | none => Except.error "No healthy providers available") =
        Except.ok (pt, prov) := h
    cases hfp : findPrefProvider providers prefs with
    | some pp =>
      rw [hfp] at h0
      obtain ⟨t2, p2⟩ := pp
      have h3 : (t2, p2) = (pt, prov) := by
        have h2 : (Except.ok (t2, p2) :
            Except String (ProviderType × LLMProvider)) = Except.ok (pt, prov) := h0
        exact Except.ok.inj h2
      injection h3 with e1 e2
      subst e1
      subst e2
      exact findPrefProvider_sound providers prefs t2 p2 hfp
    | none =>
      rw [hfp] at h0
      have h1 : (match findFirstHealthy providers with
          | some pp => Except.ok pp
          | none => (Except.error "No healthy providers available" :
              Except String (ProviderType × LLMProvider))) =
          Except.ok (pt, prov) := h0
      cases hf : findFirstHealthy providers with
      | none => rw [hf] at h1; cases h1
      | some pp =>
        rw [hf] at h1
        obtain ⟨t2, p2⟩ := pp
        have h3 : (t2, p2) = (pt, prov) := by
          have h2 : (Except.ok (t2, p2) :
              Except String (ProviderType × LLMProvider)) = Except.ok (pt, prov) := h1
          exact Except.ok.inj h2
        injection h3 with e1 e2
        subst e1
        subst e2
        obtain ⟨hm, hh⟩ := findFirstHealthy_sound providers t2 p2 hf
        exact ⟨alookup_of_mem_nodup providers t2 p2 hnd hm, hh⟩

theorem select_error_of_all_unhealthy
    (providers : List (ProviderType × LLMProvider)) (r : LLMRequest)
    (h : ∀ up ∈ providers, up.2.healthy = false) :
    select_optimal_provider providers r =
      Except.error "No healthy providers available" := by
  have hff : findFirstHealthy providers = none := by
    have := findFirstHealthy_skip providers [] h
    simpa using this
  have hfrom : ∀ prefs, findPrefProvider providers prefs = none := by
    intro prefs
    apply findPrefProvider_none
    intro q _
    unfold regHealthy
    cases hal : alookup providers q with
    | none => rfl
    | some prov => exact h (q, prov) (mem_of_alookup providers q prov hal)
  simp only [select_optimal_provider]
  cases hp : r.provider_preferences with
  | none => simp [hff]
  | some prefs => simp [hfrom prefs, hff]

end Manager

namespace Manager

/-- Claim C3: provider selection returns the first preference that is
registered and healthy; if no preferred kind is registered and healthy, or
no preferences are given, it returns the first healthy provider in
registration order; if no registered provider is healthy, selection (and
hence `generate`, on a cache miss) fails with "No healthy providers
available"; and a provider whose health probe fails is never invoked (its
call count is unchanged by `generate`). -/
theorem provider_selection_policy (st : ManagerState) (r : LLMRequest) :
    (∀ prefs pre p post prov,
      r.provider_preferences = some prefs → prefs = pre ++ p :: post →
      (∀ q ∈ pre, regHealthy st.providers q = false) →
      alookup st.providers p = some prov → prov.healthy = true →
      select_optimal_provider st.providers r = Except.ok (p, prov)) ∧
    (∀ pre t prov post,
      (∀ prefs, r.provider_preferences = some prefs →
        ∀ q ∈ prefs, regHealthy st.providers q = false) →
      st.providers = pre ++ (t, prov) :: post →
      (∀ up ∈ pre, up.2.healthy = false) → prov.healthy = true →
      select_optimal_provider st.providers r = Except.ok (t, prov)) ∧
    ((∀ up ∈ st.providers, up.2.healthy = false) →
      select_optimal_provider st.providers r =
        Except.error "No healthy providers available") ∧
    (∀ e, (∀ up ∈ st.providers, up.2.healthy = false) →
      alookup st.request_cache (create_cache_key r) = none →
      (generate e st r).1 = Except.error "No healthy providers available") ∧
    (∀ e t p, (st.providers.map Prod.fst).Nodup →
      alookup st.providers t = some p → p.healthy = false →
      (generate e st r).2.call_counts t = st.call_counts t) := by
  refine ⟨?_, ?_, ?_, ?_, ?_⟩
  · intro prefs pre p post prov hpref hsplit hpre hal hh
    subst hsplit
    simp only [select_optimal_provider, hpref]
    rw [findPrefProvider_skip st.providers pre (p :: post) hpre,
      findPrefProvider_hit st.providers p post prov hal hh]
  · intro pre t prov post hprefs hprov hpre hh
    have hfrom : (match r.provider_preferences with
        | some prefs => findPrefProvider st.providers prefs
        | none => none) = (none : Option (ProviderType × LLMProvider)) := by
      cases hp : r.provider_preferences with
      | none => rfl
      | some prefs =>
        show findPrefProvider st.providers prefs = none
        exact findPrefProvider_none st.providers prefs (hprefs prefs hp)
    simp only [select_optimal_provider, hfrom]
    rw [hprov, findFirstHealthy_skip pre _ hpre,
      findFirstHealthy_cons_hit t prov post hh]
  · intro hall
    exact select_error_of_all_unhealthy st.providers r hall
  · intro e hall hmiss
    simp [generate, hmiss, select_error_of_all_unhealthy st.providers r hall]
  · intro e t p hnd hal hh
    simp only [generate]
    cases hl : alookup st.request_cache (create_cache_key r) with
    | some x => simp [hl]
    | none =>
      simp only [hl]
      cases hsel : select_optimal_provider st.providers r with
      | error m => simp [hsel]
      | ok pp =>
        obtain ⟨pt, prov⟩ := pp
        have hsound := select_ok_sound st.providers r pt prov hnd hsel
        have hne : t ≠ pt := by
          intro hEq
          subst hEq
          rw [hal] at hsound
          obtain rfl := Option.some.inj hsound.1
          rw [hsound.2] at hh
          cases hh
        simp only [hsel]
        cases hg : prov.gen r with
        | error m => simp [hg, bumpCall, hne]
        | ok resp0 =>
          cases hu : update_cache st.cache_size st.request_cache
              (create_cache_key r) { resp0 with latency_ms := e } with
          | none => simp [hg, hu, bumpCall, hne]
          | some c2 => simp [hg, hu, bumpCall, hne]

/-- Witness for C3 at `exManager2` (an unhealthy `openai` registered
before a healthy `anthropic`): with preferences `[cohere, anthropic]`
selection skips the unregistered preference and returns `anthropic`;
without preferences it falls back past the unhealthy `openai` to
`anthropic`; and a `generate` call leaves the unhealthy provider's call
count at its prior value (never invoked). -/
theorem provider_selection_policy_witness :
    select_optimal_provider exManager2.providers exReqPref =
      Except.ok (ProviderType.anthropic, exProvider) ∧
    select_optimal_provider exManager2.providers exReq =
      Except.ok (ProviderType.anthropic, exProvider) ∧
    select_optimal_provider (initManager 2).providers exReq =
      Except.error "No healthy providers available" ∧
    (generate 5 (initManager 2) exReq).1 =
      Except.error "No healthy providers available" ∧
    (generate 5 exManager2 exReq).2.call_counts ProviderType.openai =
      exManager2.call_counts ProviderType.openai := by
  refine ⟨?_, ?_, ?_, ?_, ?_⟩
  · exact (provider_selection_policy exManager2 exReqPref).1
      [ProviderType.cohere, ProviderType.anthropic] [ProviderType.cohere]
      ProviderType.anthropic [] exProvider rfl rfl
      (by
        intro q hq
        rw [List.mem_singleton] at hq
        subst hq
        rfl)
      rfl rfl
  · exact (provider_selection_policy exManager2 exReq).2.1
      [(ProviderType.openai, exBadHealth)] ProviderType.anthropic exProvider
      []
      (by intro prefs h; exact Option.noConfusion h)
      rfl
      (by
        intro up hup
        rw [List.mem_singleton] at hup
        subst hup
        rfl)
      rfl
  · exact (provider_selection_policy (initManager 2) exReq).2.2.1
      (by intro up hup; cases hup)
  · exact (provider_selection_policy (initManager 2) exReq).2.2.2.1 5
      (by intro up hup; cases hup) rfl
  · exact (provider_selection_policy exManager2 exReq).2.2.2.2 5
      ProviderType.openai exBadHealth (by decide) rfl rfl

end Manager
